import Mathlib

/-!
Verification of the consumable-resource engine of `cogs5e/models/character.py`
(class `Character` and its helpers).

The embedding below translates the Python methods that the claims are about into
pure Lean functions over an explicit character state.  Conventions:

* Python integers are `Int`.
* Python dicts that hold the custom counters / spell slots are ordered
  association lists (`List (key × value)`): lookup returns the value of the
  first (unique) matching key, assignment replaces it in place, and a fresh key
  is appended at the end, matching insertion-ordered `dict` semantics.
* `evaluate_cvar` substitutes cvar tables into the string and hands the result
  to the external dice/arithmetic evaluator (`roll`).  The spec (section 6)
  treats that evaluator as a pure function from the substituted text to an
  integer total, and none of the operations verified here mutate the cvar
  tables, so the whole of `evaluate_cvar` is abstracted as a parameter
  `ev : String → Int`.  Python calls `evaluate_cvar` with `None` in one place;
  since `evaluate_cvar` starts with `str(varstr)` and `str(None) = "None"`,
  that call is `ev "None"`.
* A `raise`/`except` of an exception class is an `Except CharErr _` error.
  The module imports (`from cogs5e.models.errors import ConsumableNotFound,
  CounterOutOfBounds, InvalidArgument, InvalidSpellLevel, NoCharacter,
  OutdatedSheet`) do not bind the name `NoReset`, so executing
  `raise NoReset()` or evaluating the handler expression `except NoReset:`
  raises `NameError` at runtime; this is modelled by the `nameError`
  constructor.
* The live-sheet integration (`self._live_integration`) is an external
  collaborator that the spec places out of scope (sections 1, 5, 6); the model
  corresponds to a character with no live integration attached
  (`_live_integration is None`), for which every sync branch is skipped.
-/

/-- Python exceptions that the modelled methods can raise.  All but `nameError`
and `keyError` come from `cogs5e.models.errors`; `nameError` models a Python
`NameError` from an unbound identifier and `keyError` a `KeyError` from a
missing dict key.  `noReset` is the error class the spec calls `NoReset`; the
source module never imports it, so the embedding can never produce it. -/
inductive CharErr where
  | consumableNotFound
  | counterOutOfBounds
  | invalidArgument (msg : String)
  | invalidSpellLevel
  | outdatedSheet
  | noReset
  | nameError (ident : String)
  | keyError (key : String)
  deriving DecidableEq

/-- The `DeathSaves` class: two counters of successful and failed death saves. -/
structure DeathSaves where
  successes : Int
  fails : Int
  deriving DecidableEq

/-- One custom counter, i.e. one value of the
`character['consumables']['custom']` dict.  `dtype` is the dict key `'type'`
and `live` the key `'live'`; an absent key is `none`. -/
structure CCounter where
  value : Int
  min : Option String
  max : Option String
  reset : Option String
  dtype : Option String
  live : Option String
  deriving DecidableEq

/-- One spell-slot pool, i.e. one value of the
`character['consumables']['spellslots']` dict: the remaining count and the
pool minimum consulted by `use_slot`. -/
structure SlotPool where
  value : Int
  min : Int
  deriving DecidableEq

/-- The slice of `Character` state read or written by the verified methods.
`custom` is `character['consumables']['custom']`; `spellslots` is
`character['consumables']['spellslots']` (absent key = `none`); `spellbook` is
`character['spellbook']['spellslots']` keyed by level (`none` when the
character has no spellbook at all); `srslots` is the truth value of the
`srslots` csetting read by `get_setting('srslots', False)`.  `slotResets` is
ghost instrumentation with no source counterpart: it counts completed
`reset_spellslots` calls so that reset-once properties can be stated. -/
structure CharState where
  hp : Int
  max_hp : Int
  temp_hp : Int
  death_saves : DeathSaves
  custom : List (String × CCounter)
  spellslots : Option (List (Int × SlotPool))
  spellbook : Option (List (Int × Int))
  srslots : Bool
  slotResets : Nat
  deriving DecidableEq

/-- Lookup in an ordered dict: value of the first matching key. -/
def alookup {α β : Type} [DecidableEq α] (k : α) : List (α × β) → Option β
  | [] => none
  | (k', v) :: rest => if k' = k then some v else alookup k rest

/-- Assignment `d[k] = v` in an ordered dict: replace the first matching
entry in place, or append a fresh key at the end. -/
def aset {α β : Type} [DecidableEq α] (k : α) (v : β) : List (α × β) → List (α × β)
  | [] => [(k, v)]
  | (k', v') :: rest => if k' = k then (k, v) :: rest else (k', v') :: aset k v rest

/-- Python `x or d` for integers: `x` when nonzero (truthy), else `d`. -/
def pyIntOr (x d : Int) : Int := if x = 0 then d else x

/-- The string `str(-(2 ** 32))`, the default minimum expression in
`set_consumable`. -/
def DEFAULT_MIN_EXPR : String := "-4294967296"

/-- The string `str(2 ** 32 - 1)`, the default maximum expression in
`set_consumable`. -/
def DEFAULT_MAX_EXPR : String := "4294967295"

/-- The minimum bound `set_consumable` works with:
`evaluate_cvar(counter.get('min', str(-(2 ** 32))))`. -/
def resolvedMin (ev : String → Int) (c : CCounter) : Int :=
  ev (c.min.getD DEFAULT_MIN_EXPR)

/-- The maximum bound `set_consumable` works with:
`evaluate_cvar(counter.get('max', str(2 ** 32 - 1)))`. -/
def resolvedMax (ev : String → Int) (c : CCounter) : Int :=
  ev (c.max.getD DEFAULT_MAX_EXPR)

/-- `Character.get_consumable`: the counter dict for `name`, or
`ConsumableNotFound`. -/
def get_consumable (s : CharState) (name : String) : Except CharErr CCounter :=
  match alookup name s.custom with
  | none => .error .consumableNotFound
  | some c => .ok c

/-- `Character.get_consumable_value`: `int(self.get_consumable(name).get('value', 0))`. -/
def get_consumable_value (s : CharState) (name : String) : Except CharErr Int :=
  match get_consumable s name with
  | .error e => .error e
  | .ok c => .ok c.value

/-- `Character.set_consumable(name, newValue, strict)`.  Resolves the two
bounds (with the literal default expressions), then in strict mode asserts
`_min <= newValue <= _max` (raising `CounterOutOfBounds` otherwise, before any
write), and in non-strict mode clamps with `min(max(_min, newValue), _max)`;
finally stores the result in the counter's `'value'` key. -/
def set_consumable (ev : String → Int) (name : String) (newValue : Int)
    (strict : Bool) (s : CharState) : Except CharErr CharState :=
  match alookup name s.custom with
  | none => .error .consumableNotFound
  | some c =>
    let mn := resolvedMin ev c
    let mx := resolvedMax ev c
    if strict then
      if mn ≤ newValue ∧ newValue ≤ mx then
        .ok { s with custom := aset name { c with value := newValue } s.custom }
      else .error .counterOutOfBounds
    else
      .ok { s with custom := aset name { c with value := min (max mn newValue) mx } s.custom }

/-- `Character.reset_consumable(name)`.  The source reads
`if counter.get('reset') == 'none': raise NoReset()` and
`if counter.get('max') is None: raise NoReset()`; since `NoReset` is not
among the imported names, both raise statements produce a `NameError`.
Otherwise the value is set to the re-evaluated maximum through a
non-strict (`strict=False` default) `set_consumable`. -/
def reset_consumable (ev : String → Int) (name : String) (s : CharState) :
    Except CharErr CharState :=
  match get_consumable s name with
  | .error e => .error e
  | .ok c =>
    if c.reset = some "none" then .error (.nameError "NoReset")
    else
      match c.max with
      | none => .error (.nameError "NoReset")
      | some m => set_consumable ev name (ev m) false s

/-- Loop body of `Character._reset_custom`: iterate over the (fixed) list of
dict items; for each counter whose `'reset'` tag equals `scope`, run
`reset_consumable` under `try ... except NoReset: pass`.  When
`reset_consumable` raises, Python evaluates the handler expression `NoReset`,
which is itself an unbound name, so a `NameError` escapes the loop instead of
the exception being swallowed. -/
def resetCustomGo (ev : String → Int) (scope : Option String) :
    List (String × CCounter) → CharState → Except CharErr (CharState × List String)
  | [], s => .ok (s, [])
  | (nm, c) :: rest, s =>
    if c.reset = scope then
      match reset_consumable ev nm s with
      | .error _ => .error (.nameError "NoReset")
      | .ok s' =>
        match resetCustomGo ev scope rest s' with
        | .error e => .error e
        | .ok (s'', ns) => .ok (s'', nm :: ns)
    else resetCustomGo ev scope rest s

/-- `Character._reset_custom(scope)`: sweep all custom counters, resetting the
ones whose `'reset'` tag equals `scope`, and collect the names of those that
were reset, in iteration order. -/
def reset_custom (ev : String → Int) (scope : Option String) (s : CharState) :
    Except CharErr (CharState × List String) :=
  resetCustomGo ev scope s.custom s

/-- `Character.reset_death_saves`: sets both counts to 0. -/
def reset_death_saves (s : CharState) : CharState :=
  { s with death_saves := ⟨0, 0⟩ }

/-- `Character.on_hp`: reset the scope-`'hp'` custom counters, then, only if
current HP is strictly positive, reset the death saves and append the
`"Death Saves"` label. -/
def on_hp (ev : String → Int) (s : CharState) :
    Except CharErr (CharState × List String) :=
  match reset_custom ev (some "hp") s with
  | .error e => .error e
  | .ok (s1, r1) =>
    if 0 < s1.hp then .ok (reset_death_saves s1, r1 ++ ["Death Saves"])
    else .ok (s1, r1)

/-- `Character.get_max_spellslots(level)`: `OutdatedSheet` when the character
has no spellbook, otherwise the spellbook's per-level count with default 0. -/
def get_max_spellslots (s : CharState) (level : Int) : Except CharErr Int :=
  match s.spellbook with
  | none => .error .outdatedSheet
  | some sb => .ok ((alookup level sb).getD 0)

/-- `Character.get_spellslots`: `self.character['consumables']['spellslots']`;
a missing key is a Python `KeyError`. -/
def get_spellslots (s : CharState) : Except CharErr (List (Int × SlotPool)) :=
  match s.spellslots with
  | none => .error (.keyError "spellslots")
  | some t => .ok t

/-- The zeroed spell-slot structure, one pool per level 1-9. -/
def zeroSlots : List (Int × SlotPool) :=
  [(1, ⟨0, 0⟩), (2, ⟨0, 0⟩), (3, ⟨0, 0⟩), (4, ⟨0, 0⟩), (5, ⟨0, 0⟩),
   (6, ⟨0, 0⟩), (7, ⟨0, 0⟩), (8, ⟨0, 0⟩), (9, ⟨0, 0⟩)]

/-- Modelled from the spec: `_initialize_spellslots` is called by
`set_remaining_slots` but is not defined in the source file under `src/`.
Spec sections 3 and 9 describe it as lazy initialization that creates a
fully-formed zero-value spell-slot structure when the structure does not yet
exist and leaves an existing structure untouched. -/
def initialize_spellslots (s : CharState) : CharState :=
  match s.spellslots with
  | none => { s with spellslots := some zeroSlots }
  | some _ => s

/-- `Character.get_remaining_slots(level)`: `InvalidSpellLevel` outside
`[0, 9]`; level 0 always reports 1 (cantrips); otherwise the pool's value. -/
def get_remaining_slots (s : CharState) (level : Int) : Except CharErr Int :=
  if ¬(0 ≤ level ∧ level < 10) then .error .invalidSpellLevel
  else if level = 0 then .ok 1
  else
    match get_spellslots s with
    | .error e => .error e
    | .ok t =>
      match alookup level t with
      | none => .error (.keyError "level")
      | some p => .ok p.value

/-- `Character.set_remaining_slots(level, value)`: asserts `0 < level < 10`
(`InvalidSpellLevel`), asserts `0 <= value <= get_max_spellslots(level)`
(`CounterOutOfBounds`; `get_max_spellslots` itself can raise `OutdatedSheet`),
then initializes the slot structure if needed and writes the pool's `'value'`
key.  The live-sheet sync branch is external and skipped. -/
def set_remaining_slots (s : CharState) (level value : Int) :
    Except CharErr CharState :=
  if ¬(0 < level ∧ level < 10) then .error .invalidSpellLevel
  else
    match get_max_spellslots s level with
    | .error e => .error e
    | .ok mx =>
      if ¬(0 ≤ value ∧ value ≤ mx) then .error .counterOutOfBounds
      else
        match (initialize_spellslots s).spellslots with
        | none => .error (.keyError "spellslots")
        | some t =>
          match alookup level t with
          | none => .error (.keyError "level")
          | some p =>
            .ok { initialize_spellslots s with
                    spellslots := some (aset level { p with value := value } t) }

/-- `Character.use_slot(level)`: asserts `0 <= level < 10`
(`InvalidSpellLevel`); level 0 is a no-op success; otherwise reads the pool,
decrements by one, raises `CounterOutOfBounds` when the decrement would go
below the pool's `'min'`, and stores through `set_remaining_slots`. -/
def use_slot (s : CharState) (level : Int) : Except CharErr CharState :=
  if ¬(0 ≤ level ∧ level < 10) then .error .invalidSpellLevel
  else if level = 0 then .ok s
  else
    match get_spellslots s with
    | .error e => .error e
    | .ok t =>
      match alookup level t with
      | none => .error (.keyError "level")
      | some p =>
        let val := p.value - 1
        if val < p.min then .error .counterOutOfBounds
        else set_remaining_slots s level val

/-- Loop body of `Character.reset_spellslots`: for each level 1-9, set the
remaining slots to the level's maximum. -/
def resetSlotsGo : List Int → CharState → Except CharErr CharState
  | [], s => .ok s
  | l :: rest, s =>
    match get_max_spellslots s l with
    | .error e => .error e
    | .ok mx =>
      match set_remaining_slots s l mx with
      | .error e => .error e
      | .ok s' => resetSlotsGo rest s'

/-- `Character.reset_spellslots`: resets every level's remaining count to its
maximum.  The final update of the ghost `slotResets` field counts the
completed call; it has no source counterpart. -/
def reset_spellslots (s : CharState) : Except CharErr CharState :=
  match resetSlotsGo [1, 2, 3, 4, 5, 6, 7, 8, 9] s with
  | .error e => .error e
  | .ok s' => .ok { s' with slotResets := s'.slotResets + 1 }

/-- `Character.set_temp_hp(temp_hp)`: stores `max(0, temp_hp)`. -/
def set_temp_hp (s : CharState) (x : Int) : CharState :=
  { s with temp_hp := max 0 x }

/-- `Character.modify_hp(value, ignore_temp)`: a negative delta first drains
temporary HP (`set_temp_hp(temp_hp + value)`) and only the unabsorbed part
(`value + min(thp, -value)`) reaches raw HP; otherwise the delta goes straight
to raw HP. -/
def modify_hp (s : CharState) (value : Int) (ignoreTemp : Bool) : CharState :=
  if value < 0 ∧ ¬ignoreTemp then
    let thp := s.temp_hp
    let s1 := set_temp_hp s (s.temp_hp + value)
    let value' := value + min thp (-value)
    { s1 with hp := s1.hp + value' }
  else { s with hp := s.hp + value }

/-- `Character.set_hp(newValue)`: store the new HP, then run `on_hp`
(whose returned list is discarded). -/
def set_hp (ev : String → Int) (s : CharState) (v : Int) : Except CharErr CharState :=
  match on_hp ev { s with hp := v } with
  | .error e => .error e
  | .ok (s', _) => .ok s'

/-- `Character.reset_hp`: zero the temporary HP, then `set_hp(get_max_hp())`. -/
def reset_hp (ev : String → Int) (s : CharState) : Except CharErr CharState :=
  set_hp ev (set_temp_hp s 0) s.max_hp

/-- `Character.short_rest`: `on_hp`, then the scope-`'short'` sweep, then,
only when the `srslots` setting is truthy, a full spell-slot reset with the
`"Spell Slots"` label appended. -/
def short_rest (ev : String → Int) (s : CharState) :
    Except CharErr (CharState × List String) :=
  match on_hp ev s with
  | .error e => .error e
  | .ok (s1, r1) =>
    match reset_custom ev (some "short") s1 with
    | .error e => .error e
    | .ok (s2, r2) =>
      if s2.srslots then
        match reset_spellslots s2 with
        | .error e => .error e
        | .ok s3 => .ok (s3, r1 ++ r2 ++ ["Spell Slots"])
      else .ok (s2, r1 ++ r2)

/-- `Character.long_rest`: `on_hp`, then `short_rest`, then the scope-`'long'`
sweep, then `reset_hp` with the `"HP"` label, then - only when the `srslots`
setting is falsy - a full spell-slot reset with the `"Spell Slots"` label. -/
def long_rest (ev : String → Int) (s : CharState) :
    Except CharErr (CharState × List String) :=
  match on_hp ev s with
  | .error e => .error e
  | .ok (s1, r1) =>
    match short_rest ev s1 with
    | .error e => .error e
    | .ok (s2, r2) =>
      match reset_custom ev (some "long") s2 with
      | .error e => .error e
      | .ok (s3, r3) =>
        match reset_hp ev s3 with
        | .error e => .error e
        | .ok s4 =>
          if ¬s4.srslots then
            match reset_spellslots s4 with
            | .error e => .error e
            | .ok s5 => .ok (s5, r1 ++ r2 ++ r3 ++ ["HP", "Spell Slots"])
          else .ok (s4, r1 ++ r2 ++ r3 ++ ["HP"])

/-- The tail of `Character.create_consumable` after the reset-token, name and
bound checks: the reset-without-max check, the bubble-display check, and the
construction and insertion of the new counter dict.  The `'reset'` key is only
stored when a reset was passed together with a maximum; `'type'` and `'live'`
are always stored; the initial `'value'` is `self.evaluate_cvar(_max) or 0`
(where a `None` maximum is stringified to `"None"` by `evaluate_cvar`). -/
def createInsert (ev : String → Int) (name : String)
    (maxValue minValue reset dtype liveId : Option String) (s : CharState) :
    Except CharErr CharState :=
  if reset.isSome ∧ maxValue = none then
    .error (.invalidArgument "Reset passed but no maximum passed.")
  else if dtype = some "bubble" ∧ (maxValue = none ∨ minValue = none) then
    .error (.invalidArgument "Bubble display requires a max and min value.")
  else
    let newCounter : CCounter :=
      { value := pyIntOr (ev (maxValue.getD "None")) 0
        min := minValue
        max := maxValue
        reset := if reset.isSome ∧ maxValue.isSome then reset else none
        dtype := dtype
        live := liveId }
    .ok { s with custom := aset name newCounter s.custom }

/-- The bound checks of `Character.create_consumable`, which run only when
BOTH bounds were supplied: `assert maxV >= evaluate_cvar(_min)` (whose
`AssertionError` becomes `InvalidArgument`), then the `maxV == 0` check. -/
def boundsOk (ev : String → Int) : Option String → Option String → Except CharErr Unit
  | some mxe, some mne =>
    if ¬(ev mxe ≥ ev mne) then .error (.invalidArgument "Max value is less than min value.")
    else if ev mxe = 0 then .error (.invalidArgument "Max value cannot be 0.")
    else .ok ()
  | _, _ => .ok ()

/-- `Character.create_consumable(name, **kwargs)`: validates the reset token
(`'short'`, `'long'`, `'none'` or absent), the name characters (`.` and `$`
are reserved, tested with `any(c in name for c in ".$")`), the bound relation
and the zero maximum (both only when both bounds are supplied, via
`boundsOk`), then defers to `createInsert` for the remaining checks and the
insertion. -/
def create_consumable (ev : String → Int) (name : String)
    (maxValue minValue reset dtype liveId : Option String) (s : CharState) :
    Except CharErr CharState :=
  if ¬(reset = some "short" ∨ reset = some "long" ∨ reset = some "none" ∨ reset = none) then
    .error (.invalidArgument "Invalid reset.")
  else if name.data.contains '.' || name.data.contains '$' then
    .error (.invalidArgument "Invalid character in CC name.")
  else
    match boundsOk ev maxValue minValue with
    | .error e => .error e
    | .ok _ => createInsert ev name maxValue minValue reset dtype liveId s

/-! ### Basic dictionary lemmas -/

theorem alookup_aset_self {α β : Type} [DecidableEq α] (k : α) (v : β) (l : List (α × β)) :
    alookup k (aset k v l) = some v := by
  induction l with
  | nil => simp [aset, alookup]
  | cons hd tl ih =>
    obtain ⟨k', v'⟩ := hd
    by_cases h : k' = k
    · simp [aset, alookup, h]
    · simp [aset, alookup, h, ih]

theorem aset_keys {α β : Type} [DecidableEq α] (k : α) (v : β) (l : List (α × β)) (c : β)
    (h : alookup k l = some c) : (aset k v l).map Prod.fst = l.map Prod.fst := by
  induction l with
  | nil => simp [alookup] at h
  | cons hd tl ih =>
    obtain ⟨k', v'⟩ := hd
    by_cases hk : k' = k
    · simp [aset, hk]
    · simp [alookup, hk] at h
      simp [aset, hk, ih h]

theorem alookup_isSome_of_eq {α β : Type} [DecidableEq α] {k : α} {l : List (α × β)} {c : β}
    (h : alookup k l = some c) : k ∈ l.map Prod.fst := by
  induction l with
  | nil => simp [alookup] at h
  | cons hd tl ih =>
    obtain ⟨k', v'⟩ := hd
    by_cases hk : k' = k
    · simp [hk]
    · simp [alookup, hk] at h
      simp [ih h]

/-- Decidable equality of `Except` results, so that concrete runs of the
modelled methods can be checked by `decide`. -/
instance exceptDecEq {ε α : Type} [DecidableEq ε] [DecidableEq α] :
    DecidableEq (Except ε α) := fun a b =>
  match a, b with
  | .error e, .error f =>
    if h : e = f then .isTrue (by rw [h]) else .isFalse (by simp [h])
  | .ok x, .ok y =>
    if h : x = y then .isTrue (by rw [h]) else .isFalse (by simp [h])
  | .error _, .ok _ => .isFalse (by simp)
  | .ok _, .error _ => .isFalse (by simp)

/-- The state after storing `v` as the `'value'` of the counter dict `c`
registered under `name`: the write performed at the end of `set_consumable`. -/
def setCC (s : CharState) (name : String) (c : CCounter) (v : Int) : CharState :=
  { s with custom := aset name { c with value := v } s.custom }

/-! ### C10: temporary hit points -/

/-- C10: after any call to `set_temp_hp(x)` the stored temp HP equals
`max(0, x)`; `modify_hp` with a negative value first drains temp HP, absorbing
`min(tempHP, damage)` before reducing raw HP; temp HP stays nonnegative after
every HP mutation. -/
theorem c10_temp_hp_nonneg (s : CharState) (x v : Int) :
    (set_temp_hp s x).temp_hp = max 0 x ∧
    (v < 0 → modify_hp s v false =
      { s with temp_hp := max 0 (s.temp_hp + v), hp := s.hp + (v + min s.temp_hp (-v)) }) ∧
    (∀ ig : Bool, 0 ≤ s.temp_hp → 0 ≤ (modify_hp s v ig).temp_hp) := by
  refine ⟨rfl, fun hv => ?_, fun ig h0 => ?_⟩
  · simp [modify_hp, hv, set_temp_hp]
  · cases ig with
    | false =>
      by_cases hv : v < 0
      · simp [modify_hp, hv, set_temp_hp]
      · simp [modify_hp, hv]
        exact h0
    | true =>
      simp [modify_hp]
      exact h0

/-- Witness for C10 at a concrete state: temp HP 2, damage 5. -/
theorem c10_witness :
    (set_temp_hp { hp := 10, max_hp := 10, temp_hp := 2, death_saves := ⟨0, 0⟩, custom := [],
                   spellslots := none, spellbook := none, srslots := false, slotResets := 0 } (-4)).temp_hp
      = max 0 (-4) ∧
    modify_hp { hp := 10, max_hp := 10, temp_hp := 2, death_saves := ⟨0, 0⟩, custom := [],
                spellslots := none, spellbook := none, srslots := false, slotResets := 0 } (-5) false =
      { hp := 10 + (-5 + min 2 5), max_hp := 10, temp_hp := max 0 (2 + -5), death_saves := ⟨0, 0⟩,
        custom := [], spellslots := none, spellbook := none, srslots := false, slotResets := 0 } ∧
    0 ≤ (modify_hp { hp := 10, max_hp := 10, temp_hp := 2, death_saves := ⟨0, 0⟩, custom := [],
                     spellslots := none, spellbook := none, srslots := false, slotResets := 0 } (-5) true).temp_hp := by
  refine ⟨(c10_temp_hp_nonneg _ (-4) (-5)).1, ?_, (c10_temp_hp_nonneg _ (-4) (-5)).2.2 true (by decide)⟩
  have h := (c10_temp_hp_nonneg
    { hp := 10, max_hp := 10, temp_hp := 2, death_saves := ⟨0, 0⟩, custom := [],
      spellslots := none, spellbook := none, srslots := false, slotResets := 0 } (-4) (-5)).2.1 (by decide)
  simpa using h

/-! ### C1: non-strict set_consumable clamps into the resolved bounds -/

/-- Evaluator for the C1 counterexample: the expression `"m5"` resolves to 5
and every other expression (in particular `"m3"`) to 3. -/
def evC1 : String → Int := fun x => if x = "m5" then 5 else 3

/-- The C1 counterexample counter: its minimum expression resolves to 5 and
its maximum expression to 3 (bounds are re-evaluated on demand, so nothing
keeps a stored counter's resolved minimum below its resolved maximum). -/
def cC1 : CCounter :=
  { value := 0, min := some "m5", max := some "m3", reset := none, dtype := none, live := none }

/-- The C1 counterexample state: one custom counter named `"A"`. -/
def sC1 : CharState :=
  { hp := 10, max_hp := 10, temp_hp := 0, death_saves := ⟨0, 0⟩, custom := [("A", cC1)],
    spellslots := none, spellbook := none, srslots := false, slotResets := 0 }

/-- Counterexample to C1 as stated: with resolved min 5 and resolved max 3,
`set_consumable("A", 4, strict=False)` succeeds but stores 3, which is NOT
between the resolved bounds (`min ≤ currentValue()` fails: `¬(5 ≤ 3)`). -/
theorem c1_counterexample :
    set_consumable evC1 "A" 4 false sC1 = .ok (setCC sC1 "A" cC1 3) ∧
    get_consumable_value (setCC sC1 "A" cC1 3) "A" = .ok 3 ∧
    resolvedMin evC1 cC1 = 5 ∧ resolvedMax evC1 cC1 = 3 ∧ ¬(resolvedMin evC1 cC1 ≤ 3) := by
  decide

/-- C1 as amended: for every existing custom counter and every integer `v`,
non-strict `set_consumable` succeeds and stores the clamp
`min(max(min, v), max)`; whenever the resolved minimum does not exceed the
resolved maximum, the stored value lies between the two resolved bounds. -/
theorem c1_amended_nonstrict_clamps (ev : String → Int) (s : CharState) (name : String)
    (c : CCounter) (v : Int) (h : alookup name s.custom = some c) :
    set_consumable ev name v false s =
      .ok (setCC s name c (min (max (resolvedMin ev c) v) (resolvedMax ev c))) ∧
    get_consumable_value (setCC s name c (min (max (resolvedMin ev c) v) (resolvedMax ev c))) name
      = .ok (min (max (resolvedMin ev c) v) (resolvedMax ev c)) ∧
    (resolvedMin ev c ≤ resolvedMax ev c →
      resolvedMin ev c ≤ min (max (resolvedMin ev c) v) (resolvedMax ev c) ∧
      min (max (resolvedMin ev c) v) (resolvedMax ev c) ≤ resolvedMax ev c) := by
  refine ⟨by simp [set_consumable, setCC, h], ?_, fun hle => ⟨?_, min_le_right _ _⟩⟩
  · simp [get_consumable_value, get_consumable, setCC, alookup_aset_self]
  · exact le_min (le_max_left _ _) hle

/-- Evaluator for the C1/C2 witnesses: `"5"` resolves to 5, everything else
(in particular `"0"`) to 0. -/
def evW12 : String → Int := fun x => if x = "5" then 5 else 0

/-- Counter for the C1/C2 witnesses: bounds resolving to 0..5. -/
def cW12 : CCounter :=
  { value := 0, min := some "0", max := some "5", reset := none, dtype := none, live := none }

/-- State for the C1/C2 witnesses. -/
def sW12 : CharState :=
  { hp := 10, max_hp := 10, temp_hp := 0, death_saves := ⟨0, 0⟩, custom := [("A", cW12)],
    spellslots := none, spellbook := none, srslots := false, slotResets := 0 }

/-- Witness for C1 (amended) at a concrete input: counter with bounds 0..5,
setting 99 non-strictly succeeds with the clamped value between the bounds. -/
theorem c1_witness :
    set_consumable evW12 "A" 99 false sW12 =
      .ok (setCC sW12 "A" cW12 (min (max (resolvedMin evW12 cW12) 99) (resolvedMax evW12 cW12))) ∧
    resolvedMin evW12 cW12 ≤ min (max (resolvedMin evW12 cW12) 99) (resolvedMax evW12 cW12) ∧
    min (max (resolvedMin evW12 cW12) 99) (resolvedMax evW12 cW12) ≤ resolvedMax evW12 cW12 := by
  refine ⟨(c1_amended_nonstrict_clamps evW12 sW12 "A" cW12 99 rfl).1, ?_, ?_⟩
  · exact ((c1_amended_nonstrict_clamps evW12 sW12 "A" cW12 99 rfl).2.2 (by decide)).1
  · exact ((c1_amended_nonstrict_clamps evW12 sW12 "A" cW12 99 rfl).2.2 (by decide)).2

/-! ### C2: strict set_consumable -/

/-- C2: for every existing custom counter and every integer `v`, strict
`set_consumable` fails with `CounterOutOfBounds` exactly when `v` is outside
the resolved `[min, max]` (the error is raised before the write, so the
stored value is untouched), and otherwise succeeds storing exactly `v`. -/
theorem c2_strict_set (ev : String → Int) (s : CharState) (name : String)
    (c : CCounter) (v : Int) (h : alookup name s.custom = some c) :
    (resolvedMin ev c ≤ v ∧ v ≤ resolvedMax ev c →
      set_consumable ev name v true s = .ok (setCC s name c v) ∧
      get_consumable_value (setCC s name c v) name = .ok v) ∧
    (¬(resolvedMin ev c ≤ v ∧ v ≤ resolvedMax ev c) →
      set_consumable ev name v true s = .error .counterOutOfBounds) := by
  constructor
  · intro hin
    refine ⟨by simp [set_consumable, setCC, h, hin.1, hin.2], ?_⟩
    simp [get_consumable_value, get_consumable, setCC, alookup_aset_self]
  · intro hout
    rcases not_and_or.mp hout with h' | h'
    · simp [set_consumable, h, h']
    · simp [set_consumable, h, h']

/-- Witness for C2 at concrete inputs: counter with bounds 0..5; setting 7
strictly fails with `CounterOutOfBounds`, setting 4 strictly stores 4. -/
theorem c2_witness :
    set_consumable evW12 "A" 7 true sW12 = .error .counterOutOfBounds ∧
    set_consumable evW12 "A" 4 true sW12 = .ok (setCC sW12 "A" cW12 4) ∧
    get_consumable_value (setCC sW12 "A" cW12 4) "A" = .ok 4 := by
  refine ⟨?_, ?_, ?_⟩
  · exact (c2_strict_set evW12 sW12 "A" cW12 7 rfl).2 (by decide)
  · exact ((c2_strict_set evW12 sW12 "A" cW12 4 rfl).1 (by decide)).1
  · exact ((c2_strict_set evW12 sW12 "A" cW12 4 rfl).1 (by decide)).2

/-! ### C3: reset_consumable -/

/-- Evaluator for the C3/C9 concrete states: `"3"` resolves to 3, everything
else to 0. -/
def evC3 : String → Int := fun x => if x = "3" then 3 else 0

/-- The constant-zero evaluator used by several concrete states. -/
def evZero : String → Int := fun _ => 0

/-- A counter with a max expression but no reset scope stored. -/
def cC3 : CCounter :=
  { value := 0, min := none, max := some "3", reset := none, dtype := none, live := none }

/-- An empty baseline character state. -/
def sEmpty : CharState :=
  { hp := 10, max_hp := 10, temp_hp := 0, death_saves := ⟨0, 0⟩, custom := [],
    spellslots := none, spellbook := none, srslots := false, slotResets := 0 }

/-- The C3 counterexample state: one counter `"A"` with a max but an unset
reset scope. -/
def sC3 : CharState := { sEmpty with custom := [("A", cC3)] }

/-- Counterexample to C3 as stated: a counter whose reset scope is unset but
whose max is set is NOT refused - `reset_consumable` succeeds and sets the
value to the resolved max (the guard `counter.get('reset') == 'none'` does not
match `None`). -/
theorem c3_counterexample :
    reset_consumable evC3 "A" sC3 = .ok (setCC sC3 "A" cC3 3) ∧
    get_consumable_value (setCC sC3 "A" cC3 3) "A" = .ok 3 ∧
    cC3.reset = none := by
  decide

/-- C3 as amended: `reset_consumable(name)` refuses exactly when the counter's
reset scope is literally `'none'` or its max is unset - and the refusal is a
`NameError` at the `raise NoReset()` statement, since `NoReset` is not among
the module's imported names; otherwise (including when the reset scope is
unset but a max is present) it resolves max and sets the value to it via a
non-strict `set_consumable`. -/
theorem c3_amended_reset_consumable (ev : String → Int) (s : CharState) (name : String)
    (c : CCounter) (h : alookup name s.custom = some c) :
    ((c.reset = some "none" ∨ c.max = none) →
      reset_consumable ev name s = .error (.nameError "NoReset")) ∧
    (∀ m, c.max = some m → c.reset ≠ some "none" →
      reset_consumable ev name s = set_consumable ev name (ev m) false s) := by
  constructor
  · rintro (hr | hm)
    · simp [reset_consumable, get_consumable, h, hr]
    · by_cases hr : c.reset = some "none"
      · simp [reset_consumable, get_consumable, h, hr]
      · simp [reset_consumable, get_consumable, h, hr, hm]
  · intro m hm hr
    simp [reset_consumable, get_consumable, h, hr, hm]

/-- The C3 witness state with a literal `'none'` reset scope. -/
def sC3n : CharState := { sEmpty with custom := [("A", { cC3 with reset := some "none" })] }

/-- Witness for C3 (amended) at concrete inputs: a `'none'`-scoped counter is
refused with the `NameError`, and the unset-scope counter resets through the
non-strict `set_consumable`. -/
theorem c3_witness :
    reset_consumable evC3 "A" sC3n = .error (.nameError "NoReset") ∧
    reset_consumable evC3 "A" sC3 = set_consumable evC3 "A" (evC3 "3") false sC3 := by
  constructor
  · exact (c3_amended_reset_consumable evC3 sC3n "A" { cC3 with reset := some "none" } rfl).1
      (Or.inl rfl)
  · exact (c3_amended_reset_consumable evC3 sC3 "A" cC3 rfl).2 "3" rfl (by decide)

/-! ### C4: creation-time bound validation -/

/-- The counter dict created by the C4 counterexample call. -/
def cC4 : CCounter :=
  { value := 0, min := none, max := some "0", reset := none, dtype := none, live := none }

/-- Counterexample to C4 as stated: a creation request whose provided max
resolves to exactly 0 but whose min is absent is NOT rejected - the
`maxV == 0` check sits inside the `if _max is not None and _min is not None`
block, so `create_consumable` succeeds and inserts the counter. -/
theorem c4_counterexample :
    create_consumable evZero "A" (some "0") none none none none sEmpty =
      .ok { sEmpty with custom := [("A", cC4)] } ∧
    evZero "0" = 0 := by
  decide

/-- C4 as amended: whenever BOTH bounds are provided and the resolved max is
strictly less than the resolved min or the resolved max is exactly 0,
`create_consumable` fails with `InvalidArgument` (and, failing, inserts
nothing). -/
theorem c4_amended_create_bounds (ev : String → Int) (name : String) (mxe mne : String)
    (reset dtype liveId : Option String) (s : CharState)
    (hbad : ev mxe < ev mne ∨ ev mxe = 0) :
    ∃ msg, create_consumable ev name (some mxe) (some mne) reset dtype liveId s =
      .error (.invalidArgument msg) := by
  have hbound : ∃ m, boundsOk ev (some mxe) (some mne) = .error (.invalidArgument m) := by
    rcases hbad with hb | hb
    · refine ⟨"Max value is less than min value.", ?_⟩
      simp only [boundsOk]
      rw [if_pos (not_le.mpr hb)]
    · by_cases hge : ev mxe ≥ ev mne
      · refine ⟨"Max value cannot be 0.", ?_⟩
        simp only [boundsOk]
        rw [if_neg (not_not_intro hge), if_pos hb]
      · refine ⟨"Max value is less than min value.", ?_⟩
        simp only [boundsOk]
        rw [if_pos hge]
  obtain ⟨m, hm⟩ := hbound
  unfold create_consumable
  split
  · exact ⟨_, rfl⟩
  · split
    · exact ⟨_, rfl⟩
    · exact ⟨m, by rw [hm]⟩

/-- Witness for C4 (amended): both bounds `"0"`, so the resolved max is 0 and
creation fails with `InvalidArgument`. -/
theorem c4_witness :
    ∃ msg, create_consumable evZero "A" (some "0") (some "0") none none none sEmpty =
      .error (.invalidArgument msg) :=
  c4_amended_create_bounds evZero "A" "0" "0" none none none sEmpty (Or.inr rfl)

/-! ### C9: reset-scope tokens at creation -/

/-- `createInsert` can fail, but never with the reset-token message. -/
theorem createInsert_ne_invalid_reset (ev : String → Int) (name : String)
    (maxValue minValue reset dtype liveId : Option String) (s : CharState) :
    createInsert ev name maxValue minValue reset dtype liveId s ≠
      .error (.invalidArgument "Invalid reset.") := by
  unfold createInsert
  split
  · decide
  · split
    · decide
    · simp

/-- `boundsOk` can fail, but never with the reset-token message. -/
theorem boundsOk_ne_invalid_reset (ev : String → Int) (maxValue minValue : Option String) :
    boundsOk ev maxValue minValue ≠ .error (.invalidArgument "Invalid reset.") := by
  rcases maxValue with _ | mxe <;> rcases minValue with _ | mne <;> simp only [boundsOk]
  · simp
  · simp
  · simp
  · split
    · decide
    · split
      · decide
      · simp

/-- Counterexample to C9 as stated: a creation request with reset scope
`'hp'` (and a max provided) IS rejected with `InvalidArgument` on account of
the reset-scope token - `'hp'` is not in the tuple `('short', 'long', 'none')`
the source checks against. -/
theorem c9_counterexample :
    create_consumable evC3 "T" (some "3") none (some "hp") none none sEmpty =
      .error (.invalidArgument "Invalid reset.") := by
  decide

/-- C9 as amended: a creation request whose reset scope is `'short'`,
`'long'`, `'none'` or absent is never rejected on account of the reset-scope
token; a reset scope of `'hp'` is always rejected with
`InvalidArgument("Invalid reset.")`, even when a max is provided. -/
theorem c9_amended_reset_tokens (ev : String → Int) (name : String)
    (maxValue minValue dtype liveId : Option String) (reset : Option String) (s : CharState) :
    ((reset = some "short" ∨ reset = some "long" ∨ reset = some "none" ∨ reset = none) →
      create_consumable ev name maxValue minValue reset dtype liveId s ≠
        .error (.invalidArgument "Invalid reset.")) ∧
    create_consumable ev name maxValue minValue (some "hp") dtype liveId s =
      .error (.invalidArgument "Invalid reset.") := by
  constructor
  · intro htok hEq
    unfold create_consumable at hEq
    rw [if_neg (not_not_intro htok)] at hEq
    split at hEq
    · exact absurd hEq (by decide)
    · split at hEq
      · rename_i e heq
        have he : e = CharErr.invalidArgument "Invalid reset." := by injection hEq
        rw [he] at heq
        exact boundsOk_ne_invalid_reset ev maxValue minValue heq
      · exact absurd hEq (createInsert_ne_invalid_reset ev name maxValue minValue reset dtype liveId s)
  · unfold create_consumable
    rw [if_pos (by decide)]

/-- Witness for C9 (amended): a creation request with reset scope `'short'`
is not rejected with the reset-token message. -/
theorem c9_witness :
    create_consumable evC3 "W" (some "3") none (some "short") none none sEmpty ≠
      .error (.invalidArgument "Invalid reset.") :=
  (c9_amended_reset_tokens evC3 "W" (some "3") none none none (some "short") sEmpty).1
    (Or.inl rfl)

/-! ### C5: scope-wide sweep and the broken NoReset handler -/

/-- A counter whose reset tag matches the sweep scope but which has no max:
`reset_consumable` raises on it, and the sweep's `except NoReset:` handler
cannot catch the exception (the handler expression is itself the unbound name
`NoReset`). -/
def cC5 : CCounter :=
  { value := 0, min := none, max := none, reset := some "short", dtype := none, live := none }

/-- The C5 failing state: one `'short'`-scoped counter without a max. -/
def sC5 : CharState := { sEmpty with custom := [("A", cC5)] }

/-- C5 failing input, evaluated: the scope-wide sweep `_reset_custom('short')`
does not silently skip the max-less counter and return an empty list, as the
claim requires; it propagates a `NameError` to the caller because the name
`NoReset` (both at the `raise` site and in the `except` clause) is not
imported by the module. -/
theorem c5_sweep_nameerror :
    reset_custom evZero (some "short") sC5 = .error (.nameError "NoReset") ∧
    reset_custom evZero (some "short") sC5 ≠ .ok (sC5, []) := by
  decide

/-! ### Preservation lemmas for the rest triggers -/

/-- Everything a custom-counter value-write leaves untouched: every state
field except the counter values themselves, plus the dict's key sequence. -/
def ShellEq (s s' : CharState) : Prop :=
  s'.hp = s.hp ∧ s'.max_hp = s.max_hp ∧ s'.temp_hp = s.temp_hp ∧
  s'.death_saves = s.death_saves ∧ s'.spellslots = s.spellslots ∧
  s'.spellbook = s.spellbook ∧ s'.srslots = s.srslots ∧
  s'.slotResets = s.slotResets ∧ s'.custom.map Prod.fst = s.custom.map Prod.fst

theorem shellEq_self (s : CharState) : ShellEq s s :=
  ⟨rfl, rfl, rfl, rfl, rfl, rfl, rfl, rfl, rfl⟩

theorem shellEq_chain {s t u : CharState} (h1 : ShellEq s t) (h2 : ShellEq t u) :
    ShellEq s u := by
  obtain ⟨a1, a2, a3, a4, a5, a6, a7, a8, a9⟩ := h1
  obtain ⟨b1, b2, b3, b4, b5, b6, b7, b8, b9⟩ := h2
  exact ⟨b1.trans a1, b2.trans a2, b3.trans a3, b4.trans a4, b5.trans a5,
         b6.trans a6, b7.trans a7, b8.trans a8, b9.trans a9⟩

/-- A successful `set_consumable` only rewrites one counter's value: every
other state component, and the dict's keys, are unchanged. -/
theorem set_consumable_ok_shell (ev : String → Int) (name : String) (v : Int)
    (strict : Bool) (s s' : CharState)
    (h : set_consumable ev name v strict s = .ok s') : ShellEq s s' := by
  unfold set_consumable at h
  cases halk : alookup name s.custom with
  | none =>
    simp only [halk] at h
    exact absurd h (by simp)
  | some c =>
    simp only [halk] at h
    split at h
    · split at h
      · injection h with h'
        subst h'
        exact ⟨rfl, rfl, rfl, rfl, rfl, rfl, rfl, rfl, aset_keys name _ s.custom c halk⟩
      · exact absurd h (by simp)
    · injection h with h'
      subst h'
      exact ⟨rfl, rfl, rfl, rfl, rfl, rfl, rfl, rfl, aset_keys name _ s.custom c halk⟩

/-- A successful `reset_consumable` is a successful non-strict
`set_consumable`, so it preserves the same shell. -/
theorem reset_consumable_ok_shell (ev : String → Int) (name : String) (s s' : CharState)
    (h : reset_consumable ev name s = .ok s') : ShellEq s s' := by
  unfold reset_consumable at h
  cases hget : get_consumable s name with
  | error e =>
    simp only [hget] at h
    exact absurd h (by simp)
  | ok c =>
    simp only [hget] at h
    split at h
    · exact absurd h (by simp)
    · cases hmx : c.max with
      | none =>
        simp only [hmx] at h
        exact absurd h (by simp)
      | some m =>
        simp only [hmx] at h
        exact set_consumable_ok_shell ev name (ev m) false s s' h

/-- A successful sweep pass preserves the shell, and every returned name is a
key of the iterated item list. -/
theorem resetCustomGo_ok_shell (ev : String → Int) (scope : Option String)
    (l : List (String × CCounter)) (s s' : CharState) (ns : List String)
    (h : resetCustomGo ev scope l s = .ok (s', ns)) :
    ShellEq s s' ∧ ∀ n ∈ ns, n ∈ l.map Prod.fst := by
  induction l generalizing s ns with
  | nil =>
    simp only [resetCustomGo] at h
    injection h with h'
    injection h' with h1 h2
    subst h1; subst h2
    exact ⟨shellEq_self s, by simp⟩
  | cons hd tl ih =>
    obtain ⟨nm, c⟩ := hd
    simp only [resetCustomGo] at h
    split at h
    · cases hr : reset_consumable ev nm s with
      | error e =>
        simp only [hr] at h
        exact absurd h (by simp)
      | ok s1 =>
        simp only [hr] at h
        cases hrec : resetCustomGo ev scope tl s1 with
        | error e =>
          simp only [hrec] at h
          exact absurd h (by simp)
        | ok p =>
          obtain ⟨s2, ns2⟩ := p
          simp only [hrec] at h
          injection h with h'
          injection h' with h1 h2
          subst h1; subst h2
          obtain ⟨hsh, hmem⟩ := ih s1 ns2 hrec
          refine ⟨shellEq_chain (reset_consumable_ok_shell ev nm s s1 hr) hsh, ?_⟩
          intro n hn
          rcases List.mem_cons.mp hn with h | h
          · subst h; simp
          · simp only [List.map_cons, List.mem_cons]
            exact Or.inr (hmem n h)
    · obtain ⟨hsh, hmem⟩ := ih s ns h
      refine ⟨hsh, fun n hn => ?_⟩
      simp only [List.map_cons, List.mem_cons]
      exact Or.inr (hmem n hn)

/-- A successful `_reset_custom` sweep preserves the shell and returns only
names of existing counters. -/
theorem reset_custom_ok_shell (ev : String → Int) (scope : Option String)
    (s s' : CharState) (ns : List String)
    (h : reset_custom ev scope s = .ok (s', ns)) :
    ShellEq s s' ∧ ∀ n ∈ ns, n ∈ s.custom.map Prod.fst :=
  resetCustomGo_ok_shell ev scope s.custom s s' ns h

/-- A successful `on_hp` leaves HP, the slot machinery, the settings and the
counter keys unchanged, and only returns counter names plus possibly the
`"Death Saves"` label. -/
theorem on_hp_ok (ev : String → Int) (s s' : CharState) (r : List String)
    (h : on_hp ev s = .ok (s', r)) :
    s'.hp = s.hp ∧ s'.max_hp = s.max_hp ∧ s'.temp_hp = s.temp_hp ∧
    s'.spellslots = s.spellslots ∧ s'.spellbook = s.spellbook ∧
    s'.srslots = s.srslots ∧ s'.slotResets = s.slotResets ∧
    s'.custom.map Prod.fst = s.custom.map Prod.fst ∧
    ∀ x ∈ r, x ∈ s.custom.map Prod.fst ∨ x = "Death Saves" := by
  unfold on_hp at h
  cases hrc : reset_custom ev (some "hp") s with
  | error e =>
    simp only [hrc] at h
    exact absurd h (by simp)
  | ok p =>
    obtain ⟨s1, r1⟩ := p
    simp only [hrc] at h
    obtain ⟨⟨e1, e2, e3, e4, e5, e6, e7, e8, e9⟩, hmem⟩ :=
      reset_custom_ok_shell ev (some "hp") s s1 r1 hrc
    split at h
    · injection h with h'
      injection h' with hs hr
      subst hs; subst hr
      refine ⟨e1, e2, e3, e5, e6, e7, e8, e9, ?_⟩
      intro x hx
      rcases List.mem_append.mp hx with hx | hx
      · exact Or.inl (e9 ▸ (List.mem_map.mpr (by
          obtain ⟨y, hy1, hy2⟩ := List.mem_map.mp (e9 ▸ hmem x hx)
          exact ⟨y, hy1, hy2⟩)))
      · simp only [List.mem_singleton] at hx
        exact Or.inr hx
    · injection h with h'
      injection h' with hs hr
      subst hs; subst hr
      exact ⟨e1, e2, e3, e5, e6, e7, e8, e9, fun x hx => Or.inl (hmem x hx)⟩

/-! ### C6: on_hp and death saves -/

/-- The hp-scoped counter used by the C6 concrete states. -/
def cC6 : CCounter :=
  { value := 0, min := none, max := some "3", reset := some "hp", dtype := none, live := none }

/-- The C6 counterexample state: HP is 0 and a custom counter is literally
named `"Death Saves"`, with reset scope `'hp'`. -/
def sC6 : CharState :=
  { hp := 0, max_hp := 10, temp_hp := 0, death_saves := ⟨1, 2⟩,
    custom := [("Death Saves", cC6)], spellslots := none, spellbook := none,
    srslots := false, slotResets := 0 }

/-- Counterexample to C6 as stated: with HP 0, `on_hp` leaves the death-save
counts unchanged, yet the string `"Death Saves"` IS present in the returned
list - it is the name of the hp-scope custom counter that was reset, so
"`Death Saves` is absent from the returned list" fails. -/
theorem c6_counterexample :
    on_hp evC3 sC6 = .ok (setCC sC6 "Death Saves" cC6 3, ["Death Saves"]) ∧
    (setCC sC6 "Death Saves" cC6 3).death_saves = sC6.death_saves ∧
    sC6.hp = 0 ∧ "Death Saves" ∈ ["Death Saves"] := by
  refine ⟨by decide, by decide, by decide, by simp⟩

/-- C6 as amended: when the hp-scope sweep succeeds, `on_hp` resets the death
saves to `(0,0)` and appends `"Death Saves"` exactly when HP is strictly
positive; when HP is 0 or below the death-save counts are untouched and the
returned list is exactly the sweep's counter names - so `"Death Saves"` is
absent provided no custom counter is itself named `"Death Saves"`.  In both
cases the hp-scope counters are reset first. -/
theorem c6_amended_on_hp (ev : String → Int) (s s1 : CharState) (r1 : List String)
    (h : reset_custom ev (some "hp") s = .ok (s1, r1)) :
    (0 < s.hp → on_hp ev s = .ok (reset_death_saves s1, r1 ++ ["Death Saves"])) ∧
    (s.hp ≤ 0 → on_hp ev s = .ok (s1, r1) ∧ s1.death_saves = s.death_saves) ∧
    (("Death Saves" : String) ∉ s.custom.map Prod.fst → "Death Saves" ∉ r1) := by
  obtain ⟨⟨e1, _, _, e4, _, _, _, _, _⟩, hmem⟩ := reset_custom_ok_shell ev (some "hp") s s1 r1 h
  refine ⟨fun hpos => ?_, fun hle => ?_, fun hno hin => hno (hmem _ hin)⟩
  · unfold on_hp
    simp only [h]
    rw [if_pos (by rw [e1]; exact hpos)]
  · unfold on_hp
    simp only [h]
    rw [if_neg (by rw [e1]; exact not_lt.mpr hle)]
    exact ⟨rfl, e4⟩

/-- The C6 witness state: HP 1 and an ordinary hp-scoped counter `"Rage"`. -/
def sW6 : CharState :=
  { hp := 1, max_hp := 10, temp_hp := 0, death_saves := ⟨1, 2⟩,
    custom := [("Rage", cC6)], spellslots := none, spellbook := none,
    srslots := false, slotResets := 0 }

/-- Witness for C6 (amended) at concrete inputs: with HP 1 the death saves
are reset and `"Death Saves"` is appended after the sweep name `"Rage"`; and
with no counter named `"Death Saves"` the sweep list avoids that label. -/
theorem c6_witness :
    on_hp evC3 sW6 = .ok (reset_death_saves (setCC sW6 "Rage" cC6 3), ["Rage"] ++ ["Death Saves"]) ∧
    ("Death Saves" : String) ∉ ["Rage"] := by
  have h : reset_custom evC3 (some "hp") sW6 = .ok (setCC sW6 "Rage" cC6 3, ["Rage"]) := by
    decide
  exact ⟨(c6_amended_on_hp evC3 sW6 _ _ h).1 (by decide),
         (c6_amended_on_hp evC3 sW6 _ _ h).2.2 (by decide)⟩

/-! ### Slot-machinery preservation lemmas -/

/-- Everything the spell-slot writers leave untouched: every state field
except the slot structure and the ghost counter. -/
def SlotShell (s s' : CharState) : Prop :=
  s'.hp = s.hp ∧ s'.max_hp = s.max_hp ∧ s'.temp_hp = s.temp_hp ∧
  s'.death_saves = s.death_saves ∧ s'.custom = s.custom ∧
  s'.spellbook = s.spellbook ∧ s'.srslots = s.srslots

theorem slotShell_self (s : CharState) : SlotShell s s :=
  ⟨rfl, rfl, rfl, rfl, rfl, rfl, rfl⟩

theorem slotShell_chain {s t u : CharState} (h1 : SlotShell s t) (h2 : SlotShell t u) :
    SlotShell s u := by
  obtain ⟨a1, a2, a3, a4, a5, a6, a7⟩ := h1
  obtain ⟨b1, b2, b3, b4, b5, b6, b7⟩ := h2
  exact ⟨b1.trans a1, b2.trans a2, b3.trans a3, b4.trans a4, b5.trans a5,
         b6.trans a6, b7.trans a7⟩

/-- `initialize_spellslots` touches only the `spellslots` field. -/
theorem initialize_spellslots_shell (s : CharState) :
    SlotShell s (initialize_spellslots s) ∧
    (initialize_spellslots s).slotResets = s.slotResets := by
  cases hs : s.spellslots <;> simp [initialize_spellslots, hs, SlotShell]

/-- A successful `set_remaining_slots` only rewrites the slot structure. -/
theorem set_remaining_slots_ok_shell (s s' : CharState) (level value : Int)
    (h : set_remaining_slots s level value = .ok s') :
    SlotShell s s' ∧ s'.slotResets = s.slotResets := by
  unfold set_remaining_slots at h
  split at h
  · exact absurd h (by simp)
  · cases hmx : get_max_spellslots s level with
    | error e =>
      simp only [hmx] at h
      exact absurd h (by simp)
    | ok mx =>
      simp only [hmx] at h
      split at h
      · exact absurd h (by simp)
      · cases hss : (initialize_spellslots s).spellslots with
        | none =>
          simp only [hss] at h
          exact absurd h (by simp)
        | some t =>
          simp only [hss] at h
          cases halk : alookup level t with
          | none =>
            simp only [halk] at h
            exact absurd h (by simp)
          | some p =>
            simp only [halk] at h
            injection h with h'
            subst h'
            obtain ⟨⟨i1, i2, i3, i4, i5, i6, i7⟩, i8⟩ := initialize_spellslots_shell s
            exact ⟨⟨i1, i2, i3, i4, i5, i6, i7⟩, i8⟩

/-- A successful per-level reset loop only rewrites the slot structure. -/
theorem resetSlotsGo_ok_shell (ls : List Int) (s s' : CharState)
    (h : resetSlotsGo ls s = .ok s') :
    SlotShell s s' ∧ s'.slotResets = s.slotResets := by
  induction ls generalizing s with
  | nil =>
    simp only [resetSlotsGo] at h
    injection h with h'
    subst h'
    exact ⟨slotShell_self s, rfl⟩
  | cons l rest ih =>
    simp only [resetSlotsGo] at h
    cases hmx : get_max_spellslots s l with
    | error e =>
      simp only [hmx] at h
      exact absurd h (by simp)
    | ok mx =>
      simp only [hmx] at h
      cases hsr : set_remaining_slots s l mx with
      | error e =>
        simp only [hsr] at h
        exact absurd h (by simp)
      | ok s1 =>
        simp only [hsr] at h
        obtain ⟨hsh1, hr1⟩ := set_remaining_slots_ok_shell s s1 l mx hsr
        obtain ⟨hsh2, hr2⟩ := ih s1 h
        exact ⟨slotShell_chain hsh1 hsh2, hr2.trans hr1⟩

/-- A successful `reset_spellslots` only rewrites the slot structure and
increments the ghost reset counter by exactly one. -/
theorem reset_spellslots_ok_shell (s s' : CharState)
    (h : reset_spellslots s = .ok s') :
    SlotShell s s' ∧ s'.slotResets = s.slotResets + 1 := by
  unfold reset_spellslots at h
  cases hgo : resetSlotsGo [1, 2, 3, 4, 5, 6, 7, 8, 9] s with
  | error e =>
    simp only [hgo] at h
    exact absurd h (by simp)
  | ok s1 =>
    simp only [hgo] at h
    injection h with h'
    subst h'
    obtain ⟨⟨a1, a2, a3, a4, a5, a6, a7⟩, a8⟩ := resetSlotsGo_ok_shell _ s s1 hgo
    exact ⟨⟨a1, a2, a3, a4, a5, a6, a7⟩, by simp [a8]⟩

/-- Lists whose members are all counter names (or the death-save label) never
contain the `"Spell Slots"` label, when no counter bears that name. -/
theorem count_ss_zero {r keys : List String}
    (hmem : ∀ x ∈ r, x ∈ keys ∨ x = "Death Saves")
    (hno : ("Spell Slots" : String) ∉ keys) : r.count "Spell Slots" = 0 := by
  rw [List.count_eq_zero]
  intro hin
  rcases hmem _ hin with hk | hd
  · exact hno hk
  · exact absurd hd (by decide)

/-- A successful `short_rest` preserves the settings, the spellbook, max HP
and the counter keys; it performs exactly one spell-slot reset when the
`srslots` setting is on and none otherwise, and (when no counter is named
`"Spell Slots"`) its label list contains `"Spell Slots"` accordingly. -/
theorem short_rest_ok (ev : String → Int) (s s' : CharState) (r : List String)
    (h : short_rest ev s = .ok (s', r)) :
    s'.srslots = s.srslots ∧ s'.spellbook = s.spellbook ∧ s'.max_hp = s.max_hp ∧
    s'.custom.map Prod.fst = s.custom.map Prod.fst ∧
    s'.slotResets = s.slotResets + (if s.srslots then 1 else 0) ∧
    (("Spell Slots" : String) ∉ s.custom.map Prod.fst →
      r.count "Spell Slots" = (if s.srslots then 1 else 0)) := by
  unfold short_rest at h
  cases h1 : on_hp ev s with
  | error e =>
    simp only [h1] at h
    exact absurd h (by simp)
  | ok p1 =>
    obtain ⟨s1, r1⟩ := p1
    simp only [h1] at h
    obtain ⟨a1, a2, a3, a4, a5, a6, a7, a8, amem⟩ := on_hp_ok ev s s1 r1 h1
    cases h2 : reset_custom ev (some "short") s1 with
    | error e =>
      simp only [h2] at h
      exact absurd h (by simp)
    | ok p2 =>
      obtain ⟨s2, r2⟩ := p2
      simp only [h2] at h
      obtain ⟨⟨b1, b2, b3, b4, b5, b6, b7, b8, b9⟩, bmem⟩ :=
        reset_custom_ok_shell ev (some "short") s1 s2 r2 h2
      split at h
      · rename_i hbt
        cases h3 : reset_spellslots s2 with
        | error e =>
          simp only [h3] at h
          exact absurd h (by simp)
        | ok s3 =>
          simp only [h3] at h
          injection h with h'
          injection h' with hs hr
          subst hs; subst hr
          obtain ⟨⟨c1, c2, c3, c4, c5, c6, c7⟩, c8⟩ := reset_spellslots_ok_shell s2 s3 h3
          have hsr : s.srslots = true := by rw [← a6, ← b7]; exact hbt
          refine ⟨?_, ?_, ?_, ?_, ?_, ?_⟩
          · rw [c7, b7, a6]
          · rw [c6, b6, a5]
          · rw [c2, b2, a2]
          · rw [c5, b9, a8]
          · rw [c8, b8, a7, hsr]
            simp
          · intro hno
            have hz1 : r1.count "Spell Slots" = 0 := count_ss_zero amem hno
            have hz2 : r2.count "Spell Slots" = 0 := by
              refine count_ss_zero (fun x hx => Or.inl ?_) hno
              rw [← a8]
              exact bmem x hx
            rw [hsr]
            simp [List.count_append, hz1, hz2]
      · rename_i hbf
        injection h with h'
        injection h' with hs hr
        subst hs; subst hr
        have hsr : s.srslots = false := by
          rw [← a6, ← b7]
          exact Bool.not_eq_true _ ▸ eq_false_of_ne_true hbf
        refine ⟨?_, ?_, ?_, ?_, ?_, ?_⟩
        · rw [b7, a6]
        · rw [b6, a5]
        · rw [b2, a2]
        · rw [b9, a8]
        · rw [b8, a7, hsr]
          simp
        · intro hno
          have hz1 : r1.count "Spell Slots" = 0 := count_ss_zero amem hno
          have hz2 : r2.count "Spell Slots" = 0 := by
            refine count_ss_zero (fun x hx => Or.inl ?_) hno
            rw [← a8]
            exact bmem x hx
          rw [hsr]
          simp [List.count_append, hz1, hz2]

/-- A successful `reset_hp` preserves the settings, the spellbook, the ghost
reset counter and the counter keys. -/
theorem reset_hp_ok (ev : String → Int) (s s' : CharState)
    (h : reset_hp ev s = .ok s') :
    s'.srslots = s.srslots ∧ s'.spellbook = s.spellbook ∧
    s'.slotResets = s.slotResets ∧ s'.custom.map Prod.fst = s.custom.map Prod.fst := by
  unfold reset_hp set_hp at h
  cases hoh : on_hp ev { set_temp_hp s 0 with hp := s.max_hp } with
  | error e =>
    simp only [hoh] at h
    exact absurd h (by simp)
  | ok p =>
    obtain ⟨s1, r⟩ := p
    simp only [hoh] at h
    injection h with h'
    subst h'
    obtain ⟨a1, a2, a3, a4, a5, a6, a7, a8, _⟩ := on_hp_ok ev _ s1 r hoh
    exact ⟨a6, a5, a7, a8⟩

/-! ### C7: long_rest resets spell slots exactly once -/

/-- The long-scoped counter named `"Spell Slots"` used by the C7
counterexample. -/
def cC7 : CCounter :=
  { value := 0, min := none, max := some "3", reset := some "long", dtype := none, live := none }

/-- The C7 counterexample state: a custom counter literally named
`"Spell Slots"` with reset scope `'long'`, slot recovery setting off. -/
def sC7 : CharState :=
  { hp := 5, max_hp := 5, temp_hp := 0, death_saves := ⟨0, 0⟩,
    custom := [("Spell Slots", cC7)], spellslots := none, spellbook := some [],
    srslots := false, slotResets := 0 }

/-- Counterexample to C7 as stated: the label list returned by a single
`long_rest` call contains the string `"Spell Slots"` twice - once as the name
of the reset long-scope counter and once as the appended spell-slot label -
even though the slots themselves were reset only once. -/
theorem c7_counterexample :
    (long_rest evZero sC7).toOption.map Prod.snd =
      some ["Death Saves", "Death Saves", "Spell Slots", "HP", "Spell Slots"] ∧
    (["Death Saves", "Death Saves", "Spell Slots", "HP", "Spell Slots"] : List String).count
        "Spell Slots" = 2 := by
  constructor <;> decide

/-- C7 as amended: provided no custom counter is itself named
`"Spell Slots"`, a successful `long_rest` performs exactly one spell-slot
reset and its label list contains `"Spell Slots"` exactly once: when the
`srslots` setting is off the occurrence is the appended tail right after
`"HP"`, and when it is on the single occurrence sits before the final `"HP"`
(it was appended by the embedded short-rest path). -/
theorem c7_amended_long_rest (ev : String → Int) (s s' : CharState) (labels : List String)
    (hno : ("Spell Slots" : String) ∉ s.custom.map Prod.fst)
    (hrun : long_rest ev s = .ok (s', labels)) :
    labels.count "Spell Slots" = 1 ∧ s'.slotResets = s.slotResets + 1 ∧
    (s.srslots = false →
      ∃ pre, labels = pre ++ ["HP", "Spell Slots"] ∧ pre.count "Spell Slots" = 0) ∧
    (s.srslots = true →
      ∃ pre, labels = pre ++ ["HP"] ∧ pre.count "Spell Slots" = 1) := by
  unfold long_rest at hrun
  cases h1 : on_hp ev s with
  | error e =>
    simp only [h1] at hrun
    exact absurd hrun (by simp)
  | ok p1 =>
    obtain ⟨s1, r1⟩ := p1
    simp only [h1] at hrun
    obtain ⟨a1, a2, a3, a4, a5, a6, a7, a8, amem⟩ := on_hp_ok ev s s1 r1 h1
    have hno1 : ("Spell Slots" : String) ∉ s1.custom.map Prod.fst := by rw [a8]; exact hno
    cases h2 : short_rest ev s1 with
    | error e =>
      simp only [h2] at hrun
      exact absurd hrun (by simp)
    | ok p2 =>
      obtain ⟨s2, r2⟩ := p2
      simp only [h2] at hrun
      obtain ⟨b1, b2, b3, b4, b5, b6⟩ := short_rest_ok ev s1 s2 r2 h2
      have hno2 : ("Spell Slots" : String) ∉ s2.custom.map Prod.fst := by rw [b4]; exact hno1
      cases h3 : reset_custom ev (some "long") s2 with
      | error e =>
        simp only [h3] at hrun
        exact absurd hrun (by simp)
      | ok p3 =>
        obtain ⟨s3, r3⟩ := p3
        simp only [h3] at hrun
        obtain ⟨⟨c1, c2, c3, c4, c5, c6, c7, c8, c9⟩, cmem⟩ :=
          reset_custom_ok_shell ev (some "long") s2 s3 r3 h3
        cases h4 : reset_hp ev s3 with
        | error e =>
          simp only [h4] at hrun
          exact absurd hrun (by simp)
        | ok s4 =>
          simp only [h4] at hrun
          obtain ⟨d1, d2, d3, d4⟩ := reset_hp_ok ev s3 s4 h4
          have hz1 : r1.count "Spell Slots" = 0 := count_ss_zero amem hno
          have hz3 : r3.count "Spell Slots" = 0 := by
            refine count_ss_zero (fun x hx => Or.inl ?_) hno2
            exact cmem x hx
          have hz2 : r2.count "Spell Slots" = (if s1.srslots then 1 else 0) := b6 hno1
          have hsr4 : s4.srslots = s.srslots := by rw [d1, c7, b1, a6]
          split at hrun
          · rename_i hbf
            cases h5 : reset_spellslots s4 with
            | error e =>
              simp only [h5] at hrun
              exact absurd hrun (by simp)
            | ok s5 =>
              simp only [h5] at hrun
              injection hrun with h'
              injection h' with hs hr
              subst hs; subst hr
              obtain ⟨⟨e1, e2, e3, e4, e5, e6, e7⟩, e8⟩ := reset_spellslots_ok_shell s4 s5 h5
              have hsrf : s.srslots = false := by
                rw [← hsr4]
                exact eq_false_of_ne_true hbf
              have hz2' : r2.count "Spell Slots" = 0 := by rw [hz2, a6, hsrf]; simp
              refine ⟨?_, ?_, fun _ => ?_, fun hcontra => ?_⟩
              · simp [List.count_append, hz1, hz2', hz3]
              · rw [e8, d3, c8, b5, a6, hsrf, a7]
                simp
              · refine ⟨r1 ++ r2 ++ r3, by simp, ?_⟩
                simp [List.count_append, hz1, hz2', hz3]
              · exact absurd (hsrf ▸ hcontra) (by simp)
          · rename_i hbt
            injection hrun with h'
            injection h' with hs hr
            subst hs; subst hr
            have hsrt : s.srslots = true := by
              rw [← hsr4]
              exact not_not.mp hbt
            have hz2' : r2.count "Spell Slots" = 1 := by rw [hz2, a6, hsrt]; simp
            refine ⟨?_, ?_, fun hcontra => ?_, fun _ => ?_⟩
            · simp [List.count_append, hz1, hz2', hz3]
            · rw [d3, c8, b5, a6, hsrt, a7]
              simp
            · exact absurd (hsrt ▸ hcontra) (by simp)
            · refine ⟨r1 ++ r2 ++ r3, by simp, ?_⟩
              simp [List.count_append, hz1, hz2', hz3]

/-- The C7 witness start state: no custom counters, empty spellbook, slot
recovery setting off. -/
def sW7 : CharState :=
  { hp := 1, max_hp := 1, temp_hp := 0, death_saves := ⟨1, 1⟩, custom := [],
    spellslots := none, spellbook := some [], srslots := false, slotResets := 0 }

/-- The state `long_rest` produces from `sW7`. -/
def sW7fin : CharState :=
  { hp := 1, max_hp := 1, temp_hp := 0, death_saves := ⟨0, 0⟩, custom := [],
    spellslots := some zeroSlots, spellbook := some [], srslots := false, slotResets := 1 }

/-- Witness for C7 (amended) at a concrete input: one `long_rest` call with
the setting off appends `"Spell Slots"` exactly once and bumps the ghost
spell-slot reset counter exactly once. -/
theorem c7_witness :
    long_rest evZero sW7 = .ok (sW7fin, ["Death Saves", "Death Saves", "HP", "Spell Slots"]) ∧
    (["Death Saves", "Death Saves", "HP", "Spell Slots"] : List String).count "Spell Slots" = 1 ∧
    sW7fin.slotResets = sW7.slotResets + 1 := by
  have hrun : long_rest evZero sW7 =
      .ok (sW7fin, ["Death Saves", "Death Saves", "HP", "Spell Slots"]) := by decide
  exact ⟨hrun, (c7_amended_long_rest evZero sW7 sW7fin _ (by decide) hrun).1,
         (c7_amended_long_rest evZero sW7 sW7fin _ (by decide) hrun).2.1⟩

/-! ### C8: spell-slot usage -/

/-- Repeated assignment of the same key keeps only the last value. -/
theorem aset_aset {α β : Type} [DecidableEq α] (k : α) (v w : β) (l : List (α × β)) :
    aset k v (aset k w l) = aset k v l := by
  induction l with
  | nil => simp [aset]
  | cons hd tl ih =>
    obtain ⟨k', v'⟩ := hd
    by_cases h : k' = k
    · simp [aset, h]
    · simp [aset, h, ih]

/-- `use_slot(level)` applied `n` times in a row. -/
def useIter (L : Int) : Nat → CharState → Except CharErr CharState
  | 0, s => .ok s
  | n + 1, s =>
    match use_slot s L with
    | .error e => .error e
    | .ok s' => useIter L n s'

/-- The state reached from `s` after `j` uses of level `L`: the level's pool
holds `mxI - j` remaining slots (minimum 0), everything else unchanged. -/
def slotStateAt (s : CharState) (L : Int) (t : List (Int × SlotPool)) (mxI : Int)
    (j : Nat) : CharState :=
  { s with spellslots := some (aset L ⟨mxI - j, 0⟩ t) }

/-- One successful `use_slot` step: with at least one slot remaining (and the
decremented count within the spellbook maximum), the pool's value drops by
exactly one. -/
theorem use_slot_succ (s : CharState) (sb : List (Int × Int)) (t : List (Int × SlotPool))
    (L v mxI : Int) (hsb : s.spellbook = some sb) (ht : s.spellslots = some t)
    (hL1 : 1 ≤ L) (hL9 : L ≤ 9) (hp : alookup L t = some ⟨v, 0⟩)
    (hmax : (alookup L sb).getD 0 = mxI) (h1 : 1 ≤ v) (h2 : v - 1 ≤ mxI) :
    use_slot s L = .ok { s with spellslots := some (aset L ⟨v - 1, 0⟩ t) } := by
  have hc1 : (0 ≤ L ∧ L < 10) := ⟨by omega, by omega⟩
  have hc2 : L ≠ 0 := by omega
  have hc3 : ¬(v - 1 < (0 : Int)) := by omega
  have hc4 : (0 ≤ v - 1 ∧ v - 1 ≤ mxI) := ⟨by omega, by omega⟩
  have hc5 : (0 < L ∧ L < 10) := ⟨by omega, by omega⟩
  simp [use_slot, get_spellslots, set_remaining_slots, get_max_spellslots,
        initialize_spellslots, ht, hsb, hp, hmax, hc1, hc2, hc3, hc4, hc5]

/-- One failing `use_slot` step: with no slot remaining the decrement would
drop below the pool minimum 0, so `CounterOutOfBounds` is raised. -/
theorem use_slot_fail (s : CharState) (t : List (Int × SlotPool)) (L v : Int)
    (ht : s.spellslots = some t) (hL1 : 1 ≤ L) (hL9 : L ≤ 9)
    (hp : alookup L t = some ⟨v, 0⟩) (h1 : v ≤ 0) :
    use_slot s L = .error .counterOutOfBounds := by
  have hc1 : (0 ≤ L ∧ L < 10) := ⟨by omega, by omega⟩
  have hc2 : L ≠ 0 := by omega
  have hc3 : (v - 1 < (0 : Int)) := by omega
  simp [use_slot, get_spellslots, ht, hp, hc1, hc2, hc3]

/-- Chained successful uses: from the state with `mx - j` remaining, `k`
further uses (staying within the pool) land at `mx - (j + k)` remaining. -/
theorem useIter_chain (s : CharState) (sb : List (Int × Int)) (t : List (Int × SlotPool))
    (L : Int) (mx : Nat) (hsb : s.spellbook = some sb)
    (hL1 : 1 ≤ L) (hL9 : L ≤ 9) (hmax : (alookup L sb).getD 0 = (mx : Int)) :
    ∀ k j : Nat, j + k ≤ mx →
      useIter L k (slotStateAt s L t (mx : Int) j) =
        .ok (slotStateAt s L t (mx : Int) (j + k)) := by
  intro k
  induction k with
  | zero =>
    intro j _
    simp [useIter]
  | succ n ih =>
    intro j hjk
    have h1v : (1 : Int) ≤ (mx : Int) - j := by omega
    have hstep := use_slot_succ (slotStateAt s L t (mx : Int) j) sb
      (aset L ⟨(mx : Int) - j, 0⟩ t) L ((mx : Int) - j) (mx : Int) hsb rfl hL1 hL9
      (alookup_aset_self L _ t) hmax h1v (by omega)
    have hstate : { slotStateAt s L t (mx : Int) j with
        spellslots := some (aset L ⟨(mx : Int) - j - 1, 0⟩ (aset L ⟨(mx : Int) - j, 0⟩ t)) } =
        slotStateAt s L t (mx : Int) (j + 1) := by
      simp only [slotStateAt, aset_aset]
      have hcast : (mx : Int) - j - 1 = (mx : Int) - ((j + 1 : Nat) : Int) := by push_cast; ring
      rw [hcast]
    simp only [useIter, hstep, hstate]
    rw [ih (j + 1) (by omega)]
    have hidx : j + 1 + n = j + (n + 1) := by omega
    rw [hidx]

/-- Chained uses past the pool: from the state with `mx - j` remaining and
`j + k = mx`, the `(k+1)`-st further use fails with `CounterOutOfBounds`. -/
theorem useIter_fail_chain (s : CharState) (sb : List (Int × Int)) (t : List (Int × SlotPool))
    (L : Int) (mx : Nat) (hsb : s.spellbook = some sb)
    (hL1 : 1 ≤ L) (hL9 : L ≤ 9) (hmax : (alookup L sb).getD 0 = (mx : Int)) :
    ∀ k j : Nat, j + k = mx →
      useIter L (k + 1) (slotStateAt s L t (mx : Int) j) = .error .counterOutOfBounds := by
  intro k
  induction k with
  | zero =>
    intro j hj
    have hv : (mx : Int) - j ≤ 0 := by omega
    have hfail := use_slot_fail (slotStateAt s L t (mx : Int) j)
      (aset L ⟨(mx : Int) - j, 0⟩ t) L ((mx : Int) - j) rfl hL1 hL9
      (alookup_aset_self L _ t) hv
    simp only [useIter, hfail]
  | succ n ih =>
    intro j hj
    have h1v : (1 : Int) ≤ (mx : Int) - j := by omega
    have hstep := use_slot_succ (slotStateAt s L t (mx : Int) j) sb
      (aset L ⟨(mx : Int) - j, 0⟩ t) L ((mx : Int) - j) (mx : Int) hsb rfl hL1 hL9
      (alookup_aset_self L _ t) hmax h1v (by omega)
    have hstate : { slotStateAt s L t (mx : Int) j with
        spellslots := some (aset L ⟨(mx : Int) - j - 1, 0⟩ (aset L ⟨(mx : Int) - j, 0⟩ t)) } =
        slotStateAt s L t (mx : Int) (j + 1) := by
      simp only [slotStateAt, aset_aset]
      have hcast : (mx : Int) - j - 1 = (mx : Int) - ((j + 1 : Nat) : Int) := by push_cast; ring
      rw [hcast]
    simp only [useIter, hstep, hstate]
    exact ih (j + 1) (by omega)

/-- C8: starting from a full pool at a level in 1..9 (value `maxSlots(level)`,
pool minimum 0), `use_slot(level)` applied `k ≤ maxSlots(level)` times in a
row succeeds, decrementing the remaining count by one each time; the
`(maxSlots(level)+1)`-st application fails with `CounterOutOfBounds`; and
`use_slot(0)` succeeds any number of times without changing anything. -/
theorem c8_slot_usage (s : CharState) (sb : List (Int × Int)) (t : List (Int × SlotPool))
    (L : Int) (mx : Nat) (hsb : s.spellbook = some sb) (ht : s.spellslots = some t)
    (hL1 : 1 ≤ L) (hL9 : L ≤ 9) (hfull : alookup L t = some ⟨(mx : Int), 0⟩)
    (hmax : (alookup L sb).getD 0 = (mx : Int)) :
    (∀ k : Nat, 1 ≤ k → k ≤ mx →
      useIter L k s = .ok (slotStateAt s L t (mx : Int) k) ∧
      get_remaining_slots (slotStateAt s L t (mx : Int) k) L = .ok ((mx : Int) - k)) ∧
    useIter L (mx + 1) s = .error .counterOutOfBounds ∧
    (∀ n : Nat, useIter 0 n s = .ok s) := by
  have hrem : ∀ k : Nat,
      get_remaining_slots (slotStateAt s L t (mx : Int) k) L = .ok ((mx : Int) - k) := by
    intro k
    have hc1 : (0 ≤ L ∧ L < 10) := ⟨by omega, by omega⟩
    have hc2 : L ≠ 0 := by omega
    simp [get_remaining_slots, get_spellslots, slotStateAt, alookup_aset_self, hc1, hc2]
  have hstep1 : ∀ k : Nat, 1 ≤ k → k ≤ mx →
      useIter L k s = .ok (slotStateAt s L t (mx : Int) k) := by
    intro k hk1 hk2
    obtain ⟨n, rfl⟩ : ∃ n, k = n + 1 := ⟨k - 1, by omega⟩
    have h1v : (1 : Int) ≤ (mx : Int) := by omega
    have hstep := use_slot_succ s sb t L (mx : Int) (mx : Int) hsb ht hL1 hL9 hfull hmax
      h1v (by omega)
    have hstate : { s with spellslots := some (aset L ⟨(mx : Int) - 1, 0⟩ t) } =
        slotStateAt s L t (mx : Int) 1 := by
      simp [slotStateAt]
    simp only [useIter, hstep, hstate]
    rw [useIter_chain s sb t L mx hsb hL1 hL9 hmax n 1 (by omega)]
    have hidx : 1 + n = n + 1 := by omega
    rw [hidx]
  refine ⟨fun k hk1 hk2 => ⟨hstep1 k hk1 hk2, hrem k⟩, ?_, ?_⟩
  · cases mx with
    | zero =>
      have hfail := use_slot_fail s t L ((0 : Nat) : Int) ht hL1 hL9 hfull (by simp)
      simp only [useIter, hfail]
    | succ m =>
      have h1v : (1 : Int) ≤ ((m + 1 : Nat) : Int) := by omega
      have hstep := use_slot_succ s sb t L ((m + 1 : Nat) : Int) ((m + 1 : Nat) : Int)
        hsb ht hL1 hL9 hfull hmax h1v (by omega)
      have hstate : { s with spellslots := some (aset L ⟨((m + 1 : Nat) : Int) - 1, 0⟩ t) } =
          slotStateAt s L t ((m + 1 : Nat) : Int) 1 := by
        simp [slotStateAt]
      simp only [useIter, hstep, hstate]
      exact useIter_fail_chain s sb t L (m + 1) hsb hL1 hL9 hmax m 1 (by omega)
  · intro n
    have h0 : use_slot s 0 = .ok s := by simp [use_slot]
    induction n with
    | zero => simp [useIter]
    | succ n ih =>
      simp only [useIter, h0]
      exact ih

/-- The C8 witness spellbook: 2 slots at level 3. -/
def sbW8 : List (Int × Int) := [(3, 2)]

/-- The C8 witness slot table: level 3 full at 2 slots, minimum 0. -/
def tW8 : List (Int × SlotPool) :=
  [(1, ⟨0, 0⟩), (2, ⟨0, 0⟩), (3, ⟨2, 0⟩), (4, ⟨0, 0⟩), (5, ⟨0, 0⟩),
   (6, ⟨0, 0⟩), (7, ⟨0, 0⟩), (8, ⟨0, 0⟩), (9, ⟨0, 0⟩)]

/-- The C8 witness character. -/
def sW8 : CharState :=
  { hp := 5, max_hp := 5, temp_hp := 0, death_saves := ⟨0, 0⟩, custom := [],
    spellslots := some tW8, spellbook := some sbW8, srslots := false, slotResets := 0 }

/-- Witness for C8 at a concrete input: a full level-3 pool of 2 slots
supports exactly 2 uses, the 3rd fails with `CounterOutOfBounds`, and 5 uses
of level 0 change nothing. -/
theorem c8_witness :
    useIter 3 2 sW8 = .ok (slotStateAt sW8 3 tW8 ((2 : Nat) : Int) 2) ∧
    useIter 3 3 sW8 = .error .counterOutOfBounds ∧
    useIter 0 5 sW8 = .ok sW8 := by
  refine ⟨((c8_slot_usage sW8 sbW8 tW8 3 2 rfl rfl (by decide) (by decide) (by decide)
      (by decide)).1 2 (by decide) (by decide)).1, ?_, ?_⟩
  · exact (c8_slot_usage sW8 sbW8 tW8 3 2 rfl rfl (by decide) (by decide) (by decide)
      (by decide)).2.1
  · exact (c8_slot_usage sW8 sbW8 tW8 3 2 rfl rfl (by decide) (by decide) (by decide)
      (by decide)).2.2 5
